import Mathlib

/-!
Verification of kernelstats (udoprog/kernelstats) against its
natural-language specification.

This file gives a shallow embedding of the parts of `src/kernels.rs` and
`src/main.rs` that the claims concern: kernel-version URL derivation, the
archive acquisition pipeline (`download_old_kernels` / `download_archive`),
the structural archive verifier (`test_reader_archive`), the git tag filter,
and the analysis-queue construction in `main`.

Conventions of the embedding:
- Rust `String`/`&str` are Lean `String`; byte buffers (`Vec<u8>`) are
  `List Nat`.
- Filesystem presence of the single canonical cache file per release is an
  `Option Content` (the file's bytes, or `none` when absent); OS-level file
  operations (create/write/sync/remove/open-of-existing) are modelled as
  succeeding, while the interesting failure points (network, HTTP status,
  body read, archive verification) are explicit.
- The network is an oracle value (`FetchResult`) supplied per release; a
  `Bool` in the result records whether a network request was initiated.
- `rayon`'s order-preserving fail-fast `collect::<Result<Vec<_>>>` over
  `par_iter().map(...)` is modelled as a sequential left-to-right
  accumulation, which preserves input order and stops at the first error.
-/

/-- Models Rust `str::ends_with` with a string pattern: whether `suffix` is
a suffix of `s`. -/
def strEndsWith (s suffix : String) : Bool :=
  suffix.data.isSuffixOf s.data

/-- Models Rust `str::starts_with` with a string pattern: whether `pre` is
a prefix of `s`. -/
def strStartsWith (s pre : String) : Bool :=
  pre.data.isPrefixOf s.data

/-- Models Rust `str::split` with a single-character pattern, on character
lists: splitting on `sep` always yields at least one (possibly empty)
piece. -/
def splitCharList (sep : Char) : List Char → List (List Char)
  | [] => [[]]
  | c :: rest =>
    let r := splitCharList sep rest
    if c == sep then [] :: r
    else
      match r with
      | [] => [[c]]
      | h :: t => (c :: h) :: t

/-- Models Rust `str::split` with a single-character pattern, on strings. -/
def splitChar (s : String) (sep : Char) : List String :=
  (splitCharList sep s.data).map (fun l => ⟨l⟩)

/-- Models Rust `char::is_numeric` as used in `main.rs`
`tag.trim_end_matches(char::is_numeric)`. On ASCII input (all git tags in
this repository's domain) Rust's Unicode numeric test coincides with the
ASCII digit test used here. -/
def charIsNumeric (c : Char) : Bool := c.isDigit

/-- Models Rust `str::trim_end_matches` with a character-class pattern:
removes the longest suffix of characters satisfying `p`. -/
def trimEndMatches (s : String) (p : Char → Bool) : String :=
  ⟨(s.data.reverse.dropWhile p).reverse⟩

/-- Models Rust `str::trim_start_matches` with a character-class pattern:
removes the longest prefix of characters satisfying `p`. -/
def trimStartMatches (s : String) (p : Char → Bool) : String :=
  ⟨s.data.dropWhile p⟩

/-- The tag filter of `main.rs` (the `match tag.as_str()` in `main`,
lines 370-384): returns `true` when the tag is KEPT (pushed onto the
queue), `false` when it is skipped. A tag is skipped when it equals
`"v2.6.11"`, ends with `"-tree"`, or, after trimming trailing numeric
characters, ends with `"-rc"`. -/
def keepTag (tag : String) : Bool :=
  !(tag == "v2.6.11"
    || strEndsWith tag "-tree"
    || strEndsWith (trimEndMatches tag charIsNumeric) "-rc")

/-- `KernelVersion` from `src/kernels.rs`: a raw version string and an
importance flag. -/
structure KernelVersion where
  important : Bool
  raw : String
deriving DecidableEq, Repr

/-- `KernelVersion::new`: a leading `'!'` marks the version important and is
stripped from the stored string. -/
def KernelVersion.new (raw : String) : KernelVersion :=
  if strStartsWith raw "!" then ⟨true, ⟨raw.data.drop 1⟩⟩ else ⟨false, raw⟩

/-- `URL_BASE` from `src/kernels.rs`. -/
def urlBase : String := "https://mirrors.kernel.org/pub/linux/kernel"

/-- `KernelVersion::tar_gz_url` from `src/kernels.rs`: strips leading `'!'`,
splits the version on `'.'`, takes `major` (first component, with the
source's odd `unwrap_or_else` default string) and `minor` (second component,
defaulting to `"x"`), names the tarball `v{version}` for the historical
exception `"1.1.0"` and `linux-{version}` otherwise, and assembles the URL.
The source returns `Result<String, Error>` but has no error path; modelled
as `Except String String` accordingly. -/
def KernelVersion.tarGzUrl (v : KernelVersion) : Except String String :=
  let version := trimStartMatches v.raw (fun c => c == '!')
  let parts := splitChar version '.'
  let major := match parts with
    | [] => "expected major version"
    | m :: _ => m
  let minor := match parts.drop 1 with
    | [] => "x"
    | m :: _ => m
  let name := if version == "1.1.0" then "v" ++ version else "linux-" ++ version
  Except.ok (urlBase ++ "/v" ++ major ++ "." ++ minor ++ "/" ++ name ++ ".tar.gz")

/-- The spec's description of the mirror-relative download path, written
from the spec's words (for comparison with `KernelVersion.tarGzUrl`):
"compute major/minor from the first two dot-separated components of
versionId (minor defaults to \"x\" if absent), and build
v{major}.{minor}/linux-{versionId}.tar.gz, except versionId == \"1.1.0\"
which maps to v{major}.{minor}/v{versionId}.tar.gz". -/
def spec_mirrorRelativePath (versionId : String) : String :=
  let parts := splitChar versionId '.'
  let major := match parts with
    | [] => "expected major version"
    | m :: _ => m
  let minor := match parts.drop 1 with
    | [] => "x"
    | m :: _ => m
  if versionId == "1.1.0" then
    "v" ++ major ++ "." ++ minor ++ "/v" ++ versionId ++ ".tar.gz"
  else
    "v" ++ major ++ "." ++ minor ++ "/linux-" ++ versionId ++ ".tar.gz"

/-! ## Acquisition pipeline (`download_old_kernels` / `download_archive`) -/

/-- Byte buffers (`Vec<u8>` in the source). -/
abbrev Content := List Nat

/-- An HTTP response as `download_archive` observes it: success flag of the
status (`res.status().is_success()`), the status text used in the error
message, and the result of buffering the body (`res.copy_to`). -/
structure HttpResponse where
  statusSuccess : Bool
  status : String
  body : Except String Content

/-- The outcome of `reqwest::get`: a connection-level error or a response. -/
inductive FetchResult where
  | connErr (e : String)
  | ok (r : HttpResponse)

/-- `CachedKernel` from `src/kernels.rs`: the version and the path of the
cached tarball. -/
structure CachedKernel where
  version : KernelVersion
  path : String
deriving DecidableEq, Repr

/-- The canonical cache path of a release:
`root.join(format!("linux-{}.tar.gz", version))`, where `Display` for
`KernelVersion` prints the stored `raw` string. -/
def cachePath (root : String) (v : KernelVersion) : String :=
  root ++ "/linux-" ++ v.raw ++ ".tar.gz"

/-- The fresh-download tail of `download_archive` (from `let url = ...` on):
fetch the URL, fail hard on connection error or non-success status, buffer
the body, run `test_reader_archive` on the buffer unconditionally, and only
then write the file. Control reaches this point with no file at the
canonical path (cache miss, or the bad cached file was just removed), so
the first component is the file state at that path afterwards; the `Bool`
records that a network request was initiated. `test` is the archive
verifier applied to a buffer (`test_reader_archive` over a cursor). -/
def freshDownload (test : Content → Option String) (root : String)
    (v : KernelVersion) (net : FetchResult) :
    Option Content × Bool × Except String CachedKernel :=
  let path := cachePath root v
  match v.tarGzUrl with
  | Except.error e => (none, false, Except.error e)
  | Except.ok url =>
    match net with
    | FetchResult.connErr e =>
        (none, true, Except.error ("failed to get url: " ++ url ++ ": " ++ e))
    | FetchResult.ok r =>
        if !r.statusSuccess then
          (none, true, Except.error ("failed to download: " ++ url ++ ": " ++ r.status))
        else
          match r.body with
          | Except.error e =>
              (none, true, Except.error ("failed to copy tarball to memory: " ++ e))
          | Except.ok buf =>
              match test buf with
              | some e =>
                  (none, true, Except.error
                    ("test on downloaded archive failed: " ++ path ++ ": " ++ e))
              | none => (some buf, true, Except.ok ⟨v, path⟩)

/-- `download_archive` from `src/kernels.rs` for a single release. `fs0` is
the file state at the canonical cache path before the call (`path.is_file()`
is `fs0.isSome`). If the file exists it is accepted outright when `verify`
is false, and when `verify` is true it is accepted only if `test` passes;
a failed test removes the file and falls through to `freshDownload`.
Returns the file state at the canonical path afterwards, whether a network
request was initiated, and the result. -/
def downloadArchive (test : Content → Option String) (root : String)
    (v : KernelVersion) (verify : Bool) (fs0 : Option Content)
    (net : FetchResult) :
    Option Content × Bool × Except String CachedKernel :=
  match fs0 with
  | some c =>
      if (if verify then (test c).isNone else true) then
        (some c, false, Except.ok ⟨v, cachePath root v⟩)
      else
        freshDownload test root v net
  | none => freshDownload test root v net

/-- `download_old_kernels` from `src/kernels.rs`: acquire every listed
release, collecting into `Result<Vec<CachedKernel>, Error>`. The rayon
`par_iter().map(...).collect::<Result<Vec<_>, _>>()` preserves input order
and yields an error instead of a partial list; modelled sequentially.
`fs` and `net` give each release's initial cache-file state and network
response. -/
def downloadOldKernels (test : Content → Option String) (root : String)
    (verify : Bool) (fs : KernelVersion → Option Content)
    (net : KernelVersion → FetchResult) :
    List KernelVersion → Except String (List CachedKernel)
  | [] => Except.ok []
  | v :: rest =>
      match (downloadArchive test root v verify (fs v) (net v)).2.2 with
      | Except.error e => Except.error e
      | Except.ok k =>
          match downloadOldKernels test root verify fs net rest with
          | Except.error e => Except.error e
          | Except.ok ks => Except.ok (k :: ks)

/-! ## Archive verifier (`test_reader_archive`) -/

/-- A tar entry as `test_reader_archive` observes it: the result of
`entry.path()` and the file contents (which the verifier never reads). -/
structure TarEntry where
  pathResult : Except String String
  contents : Content

/-- The input stream as seen through `GzDecoder` + `tar::Archive`: either
`a.entries()` fails (e.g. a truncated or corrupt gzip stream), or it yields
a list of per-entry results. -/
inductive ArchiveRead where
  | listErr (e : String)
  | entries (l : List (Except String TarEntry))

/-- The entry loop of `test_reader_archive`: the first bad entry result or
bad `entry.path()` yields the reason; otherwise `none`. -/
def testEntries : List (Except String TarEntry) → Option String
  | [] => none
  | Except.error e :: _ => some ("bad entry: " ++ e)
  | Except.ok entry :: rest =>
      match entry.pathResult with
      | Except.error e => some ("bad entry: " ++ e)
      | Except.ok _ => testEntries rest

/-- `test_reader_archive` from `src/kernels.rs`: `Some reason` when the
archive is structurally bad, `none` when it is OK. -/
def testReaderArchive : ArchiveRead → Option String
  | ArchiveRead.listErr e => some ("failed to list tar entries: " ++ e)
  | ArchiveRead.entries l => testEntries l

/-- The spec's failure condition, as a Boolean predicate written from the
spec's words: gzip decompression / entry listing fails, or some entry is
bad, or some entry's path field is unresolvable. -/
def spec_archiveMalformed : ArchiveRead → Bool
  | ArchiveRead.listErr _ => true
  | ArchiveRead.entries l =>
      l.any (fun x =>
        match x with
        | Except.error _ => true
        | Except.ok e =>
            match e.pathResult with
            | Except.error _ => true
            | Except.ok _ => false)

/-- Replace the contents of every well-formed entry according to `f`,
leaving the structural metadata untouched. Used to state that the verifier
never inspects file contents. -/
def mapEntryContents (f : Content → Content) :
    List (Except String TarEntry) → List (Except String TarEntry) :=
  List.map (fun x =>
    match x with
    | Except.error e => Except.error e
    | Except.ok entry => Except.ok ⟨entry.pathResult, f entry.contents⟩)

/-! ## Analysis queue construction (`main`) -/

/-- The `Kernel` enum from `src/main.rs`, restricted to the data the queue
claims concern: an archive unit carries its version label and tarball path,
a git unit carries its tag. -/
inductive Kernel where
  | archive (version : String) (path : String)
  | git (tag : String)
deriving DecidableEq, Repr

/-- `Kernel::version` from `src/main.rs`: the version label of an archive
unit, the raw tag of a git unit. -/
def Kernel.version : Kernel → String
  | Kernel.archive v _ => v
  | Kernel.git t => t

/-- The queue construction in `main` (`src/main.rs` lines 348-385),
operationally: start from an empty queue, push one archive unit per cached
kernel in order (labelled `format!("v{}", version)`), then walk the tag
listing in order, skipping tags rejected by the filter and pushing a git
unit for each kept tag. -/
def buildQueue (cached : List CachedKernel) (tags : List String) : List Kernel :=
  let queue := cached.foldl
    (fun q k => q ++ [Kernel.archive ("v" ++ k.version.raw) k.path]) []
  tags.foldl
    (fun q tag => if keepTag tag then q ++ [Kernel.git tag] else q) queue

/-! ## Theorems -/

/-- C1 (counterexample): the claim's exclusion condition includes a
`-dontuse` suffix test, but the filter in `main` has no such arm: for the
tag `"v5.4-dontuse"` the claim's condition holds (it ends with
`"-dontuse"`), yet the filter keeps the tag, so the claimed
"excluded if and only if" equivalence is false at this input. -/
theorem c1_tag_filter_counterexample :
    ¬ (keepTag "v5.4-dontuse" = false ↔
      ("v5.4-dontuse" = "v2.6.11"
        ∨ strEndsWith "v5.4-dontuse" "-tree" = true
        ∨ strEndsWith "v5.4-dontuse" "-dontuse" = true
        ∨ strEndsWith (trimEndMatches "v5.4-dontuse" charIsNumeric) "-rc" = true)) := by
  intro h
  have hx : keepTag "v5.4-dontuse" = false :=
    h.mpr (Or.inr (Or.inr (Or.inl rfl)))
  have hy : keepTag "v5.4-dontuse" = true := rfl
  rw [hx] at hy
  exact Bool.false_ne_true hy

/-- C1 (amended): the queue-building filter excludes a tag if and only if
the tag equals `"v2.6.11"`, ends with `"-tree"`, or, after stripping all
trailing digits, ends with `"-rc"`; there is no `-dontuse` test. Of the
tags `["v2.6.11", "v5.4-rc1", "v5.4-rc", "v5.4-tree", "v5.4-dontuse",
"v5.4"]`, exactly `"v5.4-dontuse"` and `"v5.4"` survive filtering. -/
theorem c1_tag_filter_amended (tag : String) :
    (keepTag tag = false ↔
      (tag = "v2.6.11"
        ∨ strEndsWith tag "-tree" = true
        ∨ strEndsWith (trimEndMatches tag charIsNumeric) "-rc" = true))
    ∧ ["v2.6.11", "v5.4-rc1", "v5.4-rc", "v5.4-tree", "v5.4-dontuse",
        "v5.4"].filter keepTag = ["v5.4-dontuse", "v5.4"] := by
  refine ⟨?_, rfl⟩
  unfold keepTag
  simp only [Bool.not_eq_false', Bool.or_eq_true, beq_iff_eq]
  exact or_assoc

/-- C3: for every release version, the download URL is the mirror base
followed by the mirror-relative path described by the spec (major/minor
from the first two dot-separated components, minor defaulting to `"x"`,
`linux-{versionId}.tar.gz`, with the `"1.1.0"` → `v{versionId}.tar.gz`
exception); in particular `"2.6.11"` maps to `v2.6/linux-2.6.11.tar.gz`,
`"1.1.0"` to `v1.1/v1.1.0.tar.gz`, and `"3"` to `v3.x/linux-3.tar.gz`. -/
theorem c3_url_derivation :
    (∀ v : KernelVersion,
      v.tarGzUrl = Except.ok (urlBase ++ "/" ++
        spec_mirrorRelativePath (trimStartMatches v.raw (fun c => c == '!'))))
    ∧ KernelVersion.tarGzUrl ⟨false, "2.6.11"⟩ =
        Except.ok (urlBase ++ "/" ++ "v2.6/linux-2.6.11.tar.gz")
    ∧ KernelVersion.tarGzUrl ⟨false, "1.1.0"⟩ =
        Except.ok (urlBase ++ "/" ++ "v1.1/v1.1.0.tar.gz")
    ∧ KernelVersion.tarGzUrl ⟨false, "3"⟩ =
        Except.ok (urlBase ++ "/" ++ "v3.x/linux-3.tar.gz") := by
  refine ⟨?_, rfl, rfl, rfl⟩
  intro v
  unfold KernelVersion.tarGzUrl spec_mirrorRelativePath
  cases h : (trimStartMatches v.raw (fun c => c == '!')) == "1.1.0" <;>
    simp only [h, if_true, if_false, Bool.false_eq_true, ite_false, ite_true,
      Except.ok.injEq] <;>
    apply String.ext <;>
    simp [String.data_append]

/-- Helper: a successful `freshDownload` always wrote a buffer that passed
the verifier, and returns the canonical cached-kernel record. -/
lemma freshDownload_ok {test : Content → Option String} {root : String}
    {v : KernelVersion} {net : FetchResult} {fs' : Option Content}
    {fetched : Bool} {k : CachedKernel}
    (h : freshDownload test root v net = (fs', fetched, Except.ok k)) :
    ∃ buf, fs' = some buf ∧ test buf = none ∧ k = ⟨v, cachePath root v⟩ := by
  cases net with
  | connErr e => simp [freshDownload, KernelVersion.tarGzUrl] at h
  | ok r =>
    simp only [freshDownload, KernelVersion.tarGzUrl] at h
    cases hs : r.statusSuccess with
    | false => rw [hs] at h; simp at h
    | true =>
      rw [hs] at h
      simp only [Bool.not_true, Bool.false_eq_true, if_false] at h
      cases hb : r.body with
      | error e => rw [hb] at h; simp at h
      | ok buf =>
        rw [hb] at h
        dsimp only at h
        cases ht : test buf with
        | some e => rw [ht] at h; simp at h
        | none =>
          rw [ht] at h
          dsimp only at h
          simp only [Prod.mk.injEq, Except.ok.injEq] at h
          exact ⟨buf, h.1.symm, ht, h.2.2.symm⟩

/-- Helper: a successful `downloadArchive` returns the canonical record,
and the file at the canonical path afterwards either passed the verifier
or is the pre-existing file accepted without verification
(`verify = false`). -/
lemma downloadArchive_ok {test : Content → Option String} {root : String}
    {v : KernelVersion} {verify : Bool} {fs0 : Option Content}
    {net : FetchResult} {fs' : Option Content} {fetched : Bool}
    {k : CachedKernel}
    (h : downloadArchive test root v verify fs0 net = (fs', fetched, Except.ok k)) :
    k = ⟨v, cachePath root v⟩
    ∧ ∃ c', fs' = some c' ∧ (test c' = none ∨ (verify = false ∧ fs0 = some c')) := by
  cases fs0 with
  | none =>
    simp only [downloadArchive] at h
    obtain ⟨buf, h1, h2, h3⟩ := freshDownload_ok h
    exact ⟨h3, buf, h1, Or.inl h2⟩
  | some c =>
    simp only [downloadArchive] at h
    cases hv : (if verify then (test c).isNone else true) with
    | false =>
      rw [hv] at h
      simp only [Bool.false_eq_true, if_false] at h
      obtain ⟨buf, h1, h2, h3⟩ := freshDownload_ok h
      exact ⟨h3, buf, h1, Or.inl h2⟩
    | true =>
      rw [hv] at h
      simp only [if_true, Prod.mk.injEq, Except.ok.injEq] at h
      refine ⟨h.2.2.symm, c, h.1.symm, ?_⟩
      cases verify with
      | false => exact Or.inr ⟨rfl, rfl⟩
      | true =>
        simp only [if_true, Option.isNone_iff_eq_none] at hv
        exact Or.inl hv

/-- Helper: `downloadArchive_ok` restated for the result component alone. -/
lemma downloadArchive_ok_result {test : Content → Option String}
    {root : String} {v : KernelVersion} {verify : Bool}
    {fs0 : Option Content} {net : FetchResult} {k : CachedKernel}
    (h : (downloadArchive test root v verify fs0 net).2.2 = Except.ok k) :
    k = ⟨v, cachePath root v⟩ := by
  have h' : downloadArchive test root v verify fs0 net
      = ((downloadArchive test root v verify fs0 net).1,
        (downloadArchive test root v verify fs0 net).2.1, Except.ok k) := by
    rw [← h]
  exact (downloadArchive_ok h').1

/-- C2: if the existing cache file fails verification during a
verify-enabled acquisition, the run behaves exactly as if the file had
been deleted before any further decision (it coincides with the run
started from an absent file, i.e. falls through to a fresh download), and
whenever the acquisition succeeds, the file finally at the canonical path
passed verification — a verify-enabled run never ends holding a known-bad
file. -/
theorem c2_cache_self_healing (test : Content → Option String)
    (root : String) (v : KernelVersion) (c : Content) (e : String)
    (net : FetchResult) (fs' : Option Content) (fetched : Bool)
    (k : CachedKernel)
    (hbad : test c = some e)
    (hok : downloadArchive test root v true (some c) net
      = (fs', fetched, Except.ok k)) :
    downloadArchive test root v true (some c) net
      = downloadArchive test root v true none net
    ∧ ∃ c', fs' = some c' ∧ test c' = none := by
  constructor
  · simp only [downloadArchive]
    rw [hbad]
    simp
  · obtain ⟨-, c', h1, h2⟩ := downloadArchive_ok hok
    refine ⟨c', h1, ?_⟩
    cases h2 with
    | inl h => exact h
    | inr h => exact absurd h.1 (by simp)

/-- C2 witness: a concrete bad cached file (`[0]`) under a verifier that
only accepts `[1]`, with a fresh download returning `[1]`. -/
theorem c2_cache_self_healing_witness :
    downloadArchive (fun c => if c = [1] then none else some "bad archive")
        "cache" ⟨false, "1.0"⟩ true (some [0])
        (FetchResult.ok ⟨true, "200 OK", Except.ok [1]⟩)
      = downloadArchive (fun c => if c = [1] then none else some "bad archive")
        "cache" ⟨false, "1.0"⟩ true none
        (FetchResult.ok ⟨true, "200 OK", Except.ok [1]⟩)
    ∧ ∃ c', (some [1] : Option Content) = some c'
        ∧ (if c' = [1] then none else some "bad archive") = none :=
  c2_cache_self_healing (fun c => if c = [1] then none else some "bad archive")
    "cache" ⟨false, "1.0"⟩ [0] "bad archive"
    (FetchResult.ok ⟨true, "200 OK", Except.ok [1]⟩)
    (some [1]) true ⟨⟨false, "1.0"⟩, "cache/linux-1.0.tar.gz"⟩ rfl rfl

/-- C4: on a cache miss, a fresh download whose body fails the verifier is
rejected for every value of the `verify` flag (verification of fresh
downloads is unconditional): the acquisition returns an error and no file
is created at the canonical cache path. -/
theorem c4_fresh_verification_unconditional (test : Content → Option String)
    (root : String) (v : KernelVersion) (verify : Bool) (st : String)
    (buf : Content) (e : String)
    (hbuf : test buf = some e) :
    downloadArchive test root v verify none
        (FetchResult.ok ⟨true, st, Except.ok buf⟩)
      = (none, true, Except.error
          ("test on downloaded archive failed: " ++ cachePath root v ++ ": " ++ e)) := by
  simp only [downloadArchive, freshDownload, KernelVersion.tarGzUrl]
  rw [hbuf]
  simp

/-- C4 witness: a concrete downloaded body `[7]` rejected by a verifier
that rejects everything, with `verify = false`. -/
theorem c4_fresh_verification_unconditional_witness :
    downloadArchive (fun _ => some "broken") "cache" ⟨false, "1.0"⟩ false none
        (FetchResult.ok ⟨true, "200 OK", Except.ok [7]⟩)
      = (none, true, Except.error
          ("test on downloaded archive failed: "
            ++ cachePath "cache" ⟨false, "1.0"⟩ ++ ": " ++ "broken")) :=
  c4_fresh_verification_unconditional (fun _ => some "broken") "cache"
    ⟨false, "1.0"⟩ false "200 OK" [7] "broken" rfl

/-- C5: a release whose canonical cache file exists and is accepted
(`verify` off, or the file passes verification) is returned unchanged with
no network request; and after any successful acquisition, re-running
acquisition performs zero network requests and returns the same file
(idempotence on a warm, valid cache). -/
theorem c5_warm_cache_idempotent (test : Content → Option String)
    (root : String) (v : KernelVersion) (verify : Bool) (c : Content)
    (fs0 fs1 : Option Content) (net net2 : FetchResult) (fetched : Bool)
    (k : CachedKernel)
    (hacc : verify = false ∨ test c = none)
    (hok : downloadArchive test root v verify fs0 net = (fs1, fetched, Except.ok k)) :
    downloadArchive test root v verify (some c) net
      = (some c, false, Except.ok ⟨v, cachePath root v⟩)
    ∧ downloadArchive test root v verify fs1 net2
      = (fs1, false, Except.ok ⟨v, cachePath root v⟩) := by
  constructor
  · simp only [downloadArchive]
    cases hacc with
    | inl h => subst h; simp
    | inr h => rw [h]; cases verify <;> simp
  · obtain ⟨hk, c', h1, h2⟩ := downloadArchive_ok hok
    subst h1
    simp only [downloadArchive]
    cases h2 with
    | inl h => rw [h]; cases verify <;> simp
    | inr h => rw [h.1]; simp

/-- C5 witness: a verify-enabled run over a warm cache file `[0]` accepted
by the verifier performs no fetch and is idempotent. -/
theorem c5_warm_cache_idempotent_witness :
    downloadArchive (fun _ => none) "cache" ⟨false, "1.0"⟩ true (some [0])
        (FetchResult.connErr "offline")
      = (some [0], false,
        Except.ok ⟨⟨false, "1.0"⟩, cachePath "cache" ⟨false, "1.0"⟩⟩)
    ∧ downloadArchive (fun _ => none) "cache" ⟨false, "1.0"⟩ true (some [0])
        (FetchResult.connErr "still offline")
      = (some [0], false,
        Except.ok ⟨⟨false, "1.0"⟩, cachePath "cache" ⟨false, "1.0"⟩⟩) :=
  c5_warm_cache_idempotent (fun _ => none) "cache" ⟨false, "1.0"⟩ true [0]
    (some [0]) (some [0]) (FetchResult.connErr "offline")
    (FetchResult.connErr "still offline") false
    ⟨⟨false, "1.0"⟩, "cache/linux-1.0.tar.gz"⟩ (Or.inr rfl) rfl

/-- C6: a non-success HTTP status is an immediate hard failure for the
release: the result does not depend on the response body (no body is
read), nothing is written, an error is returned; and in the batch, one
failing release makes `download_old_kernels` return the first encountered
error instead of a partial list. -/
theorem c6_http_failure_aborts (test : Content → Option String)
    (root : String) (v : KernelVersion) (verify : Bool) (st : String)
    (b1 b2 : Except String Content) (fs : KernelVersion → Option Content)
    (net : KernelVersion → FetchResult) (pre rest : List KernelVersion)
    (e : String)
    (hpre : ∀ u ∈ pre, ∃ k,
      (downloadArchive test root u verify (fs u) (net u)).2.2 = Except.ok k)
    (hv : (downloadArchive test root v verify (fs v) (net v)).2.2
      = Except.error e) :
    downloadArchive test root v verify none (FetchResult.ok ⟨false, st, b1⟩)
      = downloadArchive test root v verify none (FetchResult.ok ⟨false, st, b2⟩)
    ∧ (downloadArchive test root v verify none
        (FetchResult.ok ⟨false, st, b1⟩)).1 = none
    ∧ (downloadArchive test root v verify none
        (FetchResult.ok ⟨false, st, b1⟩)).2.2
      = Except.error ("failed to download: "
          ++ (urlBase ++ "/v"
            ++ (match splitChar (trimStartMatches v.raw (fun c => c == '!')) '.' with
              | [] => "expected major version"
              | m :: _ => m)
            ++ "."
            ++ (match (splitChar (trimStartMatches v.raw (fun c => c == '!')) '.').drop 1 with
              | [] => "x"
              | m :: _ => m)
            ++ "/"
            ++ (if trimStartMatches v.raw (fun c => c == '!') == "1.1.0" then
                "v" ++ trimStartMatches v.raw (fun c => c == '!')
              else "linux-" ++ trimStartMatches v.raw (fun c => c == '!'))
            ++ ".tar.gz")
          ++ ": " ++ st)
    ∧ downloadOldKernels test root verify fs net (pre ++ v :: rest)
      = Except.error e := by
  refine ⟨rfl, rfl, rfl, ?_⟩
  revert hpre
  induction pre with
  | nil =>
    intro _
    simp only [List.nil_append, downloadOldKernels]
    rw [hv]
  | cons u us ih =>
    intro hpre
    obtain ⟨k, hk⟩ := hpre u (List.mem_cons_self u us)
    simp only [List.cons_append, downloadOldKernels]
    rw [hk, List.append_eq, ih (fun w hw => hpre w (List.mem_cons_of_mem u hw))]

/-- C6 witness: a single-release batch whose release gets a 404 response:
the batch returns the download error. -/
theorem c6_http_failure_aborts_witness :
    downloadArchive (fun _ => none) "cache" ⟨false, "1.0"⟩ false none
        (FetchResult.ok ⟨false, "404 Not Found", Except.ok []⟩)
      = downloadArchive (fun _ => none) "cache" ⟨false, "1.0"⟩ false none
        (FetchResult.ok ⟨false, "404 Not Found", Except.error "unread body"⟩)
    ∧ downloadOldKernels (fun _ => none) "cache" false (fun _ => none)
        (fun _ => FetchResult.ok ⟨false, "404 Not Found", Except.ok []⟩)
        ([] ++ ⟨false, "1.0"⟩ :: [])
      = Except.error
          ("failed to download: https://mirrors.kernel.org/pub/linux/kernel/v1.0/linux-1.0.tar.gz: 404 Not Found") :=
  ⟨(c6_http_failure_aborts (fun _ => none) "cache" ⟨false, "1.0"⟩ false
      "404 Not Found" (Except.ok []) (Except.error "unread body")
      (fun _ => none)
      (fun _ => FetchResult.ok ⟨false, "404 Not Found", Except.ok []⟩)
      [] []
      "failed to download: https://mirrors.kernel.org/pub/linux/kernel/v1.0/linux-1.0.tar.gz: 404 Not Found"
      (fun u hu => absurd hu (List.not_mem_nil u)) rfl).1,
    (c6_http_failure_aborts (fun _ => none) "cache" ⟨false, "1.0"⟩ false
      "404 Not Found" (Except.ok []) (Except.error "unread body")
      (fun _ => none)
      (fun _ => FetchResult.ok ⟨false, "404 Not Found", Except.ok []⟩)
      [] []
      "failed to download: https://mirrors.kernel.org/pub/linux/kernel/v1.0/linux-1.0.tar.gz: 404 Not Found"
      (fun u hu => absurd hu (List.not_mem_nil u)) rfl).2.2.2⟩

/-- Helper: the entry loop of the verifier fails exactly on a bad entry
result or an unresolvable entry path. -/
lemma testEntries_isSome_eq (l : List (Except String TarEntry)) :
    (testEntries l).isSome = l.any (fun x =>
      match x with
      | Except.error _ => true
      | Except.ok e =>
          match e.pathResult with
          | Except.error _ => true
          | Except.ok _ => false) := by
  induction l with
  | nil => rfl
  | cons x rest ih =>
    cases x with
    | error e => rfl
    | ok entry =>
      cases hp : entry.pathResult with
      | error e => simp [testEntries, hp]
      | ok p => simp [testEntries, hp, ih]

/-- Helper: the entry loop never depends on entry contents. -/
lemma testEntries_mapEntryContents (f : Content → Content)
    (l : List (Except String TarEntry)) :
    testEntries (mapEntryContents f l) = testEntries l := by
  induction l with
  | nil => rfl
  | cons x rest ih =>
    cases x with
    | error e => rfl
    | ok entry =>
      cases hp : entry.pathResult with
      | error e => simp [mapEntryContents, testEntries, hp]
      | ok p =>
        simp only [mapEntryContents, List.map_cons, testEntries, hp]
        simpa [mapEntryContents] using ih

/-- C7: the archive verifier returns a failure (a `some` reason) if and
only if entry listing fails (e.g. the gzip stream is truncated or
corrupt), some entry is bad, or some entry's path field is unresolvable;
it is invariant under arbitrary changes to the file contents of the
entries (it never inspects contents); and a truncated gzip stream
(surfacing as an entry-listing error) yields a returned failure value
whose reason mentions entry listing. -/
theorem c7_verifier_failure_iff :
    (∀ a : ArchiveRead, (testReaderArchive a).isSome = spec_archiveMalformed a)
    ∧ (∀ (f : Content → Content) (l : List (Except String TarEntry)),
        testReaderArchive (ArchiveRead.entries (mapEntryContents f l))
          = testReaderArchive (ArchiveRead.entries l))
    ∧ testReaderArchive (ArchiveRead.listErr "truncated gzip stream")
      = some "failed to list tar entries: truncated gzip stream" := by
  refine ⟨?_, ?_, rfl⟩
  · intro a
    cases a with
    | listErr e => rfl
    | entries l => exact testEntries_isSome_eq l
  · intro f l
    exact testEntries_mapEntryContents f l

/-- Helper: folding snoc-pushes over a list appends the mapped list. -/
lemma foldl_snoc_map {α β : Type} (f : α → β) (l : List α) (init : List β) :
    List.foldl (fun q a => q ++ [f a]) init l = init ++ l.map f := by
  induction l generalizing init with
  | nil => simp
  | cons a t ih => simp [List.foldl_cons, ih, List.append_assoc]

/-- Helper: folding guarded snoc-pushes appends the filtered-and-mapped
list. -/
lemma foldl_filter_snoc_map {α β : Type} (p : α → Bool) (f : α → β)
    (l : List α) (init : List β) :
    List.foldl (fun q a => if p a then q ++ [f a] else q) init l
      = init ++ (l.filter p).map f := by
  induction l generalizing init with
  | nil => simp
  | cons a t ih =>
    cases hp : p a with
    | true => simp [List.foldl_cons, hp, ih, List.filter_cons, List.append_assoc]
    | false => simp [List.foldl_cons, hp, ih, List.filter_cons]

/-- C8: the analysis queue is all archive-sourced units first, in
acquisition order, labelled `"v" ++ version`, followed by the VCS-sourced
units in tag-listing order after filtering, labelled with the raw tag. -/
theorem c8_queue_order_and_labels (cached : List CachedKernel)
    (tags : List String) :
    buildQueue cached tags
      = cached.map (fun k => Kernel.archive ("v" ++ k.version.raw) k.path)
        ++ (tags.filter keepTag).map Kernel.git
    ∧ (buildQueue cached tags).map Kernel.version
      = cached.map (fun k => "v" ++ k.version.raw) ++ tags.filter keepTag := by
  have h1 : buildQueue cached tags
      = cached.map (fun k => Kernel.archive ("v" ++ k.version.raw) k.path)
        ++ (tags.filter keepTag).map Kernel.git := by
    unfold buildQueue
    rw [foldl_snoc_map, foldl_filter_snoc_map]
    simp
  refine ⟨h1, ?_⟩
  rw [h1]
  simp [List.map_append, List.map_map, Function.comp_def, Kernel.version]

/-- C10: a successful `download_old_kernels` run returns exactly one
cached kernel per input release, aligned with the input: the i-th result
carries the i-th input version and the canonical cache path
`root/linux-{version}.tar.gz`, so catalog order is preserved. -/
theorem c10_result_alignment (test : Content → Option String)
    (root : String) (verify : Bool) (fs : KernelVersion → Option Content)
    (net : KernelVersion → FetchResult) (versions : List KernelVersion)
    (l : List CachedKernel)
    (h : downloadOldKernels test root verify fs net versions = Except.ok l) :
    l.length = versions.length
    ∧ ∀ i (hi : i < versions.length), ∃ hl : i < l.length,
        l.get ⟨i, hl⟩
          = ⟨versions.get ⟨i, hi⟩, cachePath root (versions.get ⟨i, hi⟩)⟩ := by
  induction versions generalizing l with
  | nil =>
    simp only [downloadOldKernels] at h
    injection h with h
    subst h
    exact ⟨rfl, fun i hi => absurd hi (Nat.not_lt_zero i)⟩
  | cons v rest ih =>
    simp only [downloadOldKernels] at h
    cases hstep : (downloadArchive test root v verify (fs v) (net v)).2.2 with
    | error e => rw [hstep] at h; simp at h
    | ok k =>
      rw [hstep] at h
      cases hrec : downloadOldKernels test root verify fs net rest with
      | error e => rw [hrec] at h; simp at h
      | ok ks =>
        rw [hrec] at h
        dsimp only at h
        injection h with h
        subst h
        obtain ⟨hlen, hidx⟩ := ih ks hrec
        have hk := downloadArchive_ok_result hstep
        constructor
        · simp [hlen]
        · intro i hi
          cases i with
          | zero => exact ⟨Nat.succ_pos _, hk⟩
          | succ j =>
            have hj : j < rest.length := Nat.lt_of_succ_lt_succ hi
            obtain ⟨hl, heq⟩ := hidx j hj
            exact ⟨Nat.succ_lt_succ hl, heq⟩

/-- C10 witness: a one-release catalog acquired from an empty cache with a
successful download; the result is aligned with the input. -/
theorem c10_result_alignment_witness :
    List.length [(⟨⟨false, "1.0"⟩, "cache/linux-1.0.tar.gz"⟩ : CachedKernel)]
      = List.length [(⟨false, "1.0"⟩ : KernelVersion)] :=
  (c10_result_alignment (fun _ => none) "cache" false (fun _ => none)
    (fun _ => FetchResult.ok ⟨true, "200 OK", Except.ok [0]⟩)
    [⟨false, "1.0"⟩] [⟨⟨false, "1.0"⟩, "cache/linux-1.0.tar.gz"⟩] rfl).1
